import Mathlib

/-!
Verification development for the AutoPostr browser client
(`assets/js/api.js`, `assets/js/auth.js`).

The request-orchestration core (`ApiService.request`, `ApiService._makeRequest`,
`ApiService._generateCacheKey`, `ApiService.clearUserCache`) and the session
core (`AuthService.login`, `AuthService.refreshUserData`,
`AuthService._setUserSession`) are shallowly embedded as pure Lean functions.
JavaScript promises are modelled by explicit promise identifiers, the
single-threaded cooperative scheduler by running the synchronous prefix of
each call as one atomic state transition, and `Date.now()` / timers by an
explicit `now : Nat` parameter.
-/

namespace AutoPostr

/-- JavaScript `x || d` for an optional number: `0` and `undefined` are falsy. -/
def jsOrNat (o : Option Nat) (d : Nat) : Nat :=
  match o with
  | some n => if n = 0 then d else n
  | none => d

/-- JavaScript `x || d` for an optional string: `""` and `undefined` are falsy. -/
def jsOrStr (o : Option String) (d : String) : String :=
  match o with
  | some s => if s = "" then d else s
  | none => d

/-- JavaScript truthiness of an optional number (e.g. `options.cacheTime`). -/
def truthyNat (o : Option Nat) : Bool :=
  match o with
  | some n => n != 0
  | none => false

/-! ## JSON values and `JSON.stringify`

Payloads in the client are plain JSON objects.  `JSON.stringify` serializes an
object's fields in insertion order, so an object is embedded as the ordered
list of its fields. -/

/-- A JSON value; `obj` keeps fields in insertion order, as JavaScript does. -/
inductive Json where
  | str (s : String)
  | num (n : Int)
  | bool (b : Bool)
  | null
  | arr (elems : List Json)
  | obj (fields : List (String × Json))
deriving Repr

/-- Quote a JSON string (escape-free fragment, as used by the client). -/
def jsonQuote (s : String) : String := "\"" ++ s ++ "\""

mutual

/-- `JSON.stringify` on a value: fields appear in insertion order. -/
def stringify : Json → String
  | .str s => jsonQuote s
  | .num n => toString n
  | .bool b => if b then "true" else "false"
  | .null => "null"
  | .arr xs => "[" ++ stringifyElems xs ++ "]"
  | .obj fs => "\x7b" ++ stringifyFields fs ++ "\x7d"

/-- Comma-separated serialization of array elements. -/
def stringifyElems : List Json → String
  | [] => ""
  | [x] => stringify x
  | x :: y :: rest => stringify x ++ "," ++ stringifyElems (y :: rest)

/-- Comma-separated serialization of object fields, in insertion order. -/
def stringifyFields : List (String × Json) → String
  | [] => ""
  | [(k, v)] => jsonQuote k ++ ":" ++ stringify v
  | (k, v) :: f :: rest =>
      jsonQuote k ++ ":" ++ stringify v ++ "," ++ stringifyFields (f :: rest)

end

/-- `ApiService._generateCacheKey(endpoint, data)`:
`` `${endpoint}_${JSON.stringify(data)}` ``. -/
def generateCacheKey (endpoint : String) (data : Json) : String :=
  endpoint ++ "_" ++ stringify data

/-- First-match lookup in an ordered association list (JS `Map.get`). -/
def mapLookup {α : Type} (l : List (String × α)) (k : String) : Option α :=
  match l with
  | [] => none
  | (k', v) :: rest => if k' = k then some v else mapLookup rest k

/-- JS `Map.set`: overwrite any existing binding for `k`. -/
def mapSet {α : Type} (l : List (String × α)) (k : String) (v : α) :
    List (String × α) :=
  (k, v) :: l.filter (fun p => p.1 ≠ k)

/-- JS `Map.delete`: remove the binding for `k`. -/
def mapDelete {α : Type} (l : List (String × α)) (k : String) :
    List (String × α) :=
  l.filter (fun p => p.1 ≠ k)

/-! ## `ApiService._makeRequest`: one attempt and the retry loop -/

/-- The parsed JSON body of a backend response: `result.success`,
`result.message` (possibly absent), and the remaining operation-specific
fields abstracted as `body`. -/
structure ApiResult where
  success : Bool
  message : Option String
  body : String
deriving DecidableEq, Repr

/-- What one `fetch` round of `_makeRequest` observes, before the code
classifies it: the network call itself failed, the HTTP status was non-ok,
the body did not parse as JSON, or a parsed body was obtained. -/
inductive AttemptOutcome where
  | netError (msg : String)
  | httpError (status : Nat) (statusText : String)
  | invalidJson
  | parsed (r : ApiResult)
deriving Repr

/-- `new Error(result.message || 'Request failed')`: an absent or empty
`message` falls back to the default. -/
def failMessage (m : Option String) : String :=
  jsOrStr m "Request failed"

/-- The body of one iteration of `_makeRequest`'s `try` block
(`api.js` lines 59-93): each observation is turned into either a thrown
error message or the returned parsed result. A body whose `success`
indicator is false is thrown with the backend-supplied message. -/
def runAttempt : AttemptOutcome → Except String ApiResult
  | .netError m => .error m
  | .httpError status statusText =>
      .error ("HTTP " ++ toString status ++ ": " ++ statusText)
  | .invalidJson => .error "Invalid JSON response from server"
  | .parsed r =>
      if r.success then .ok r else .error (failMessage r.message)

/-- The settled value of a call: the promise resolved with a parsed result,
rejected with an error message, or resolved with `undefined` (an async
function falling off the end of its body). -/
inductive ReqResult where
  | ok (r : ApiResult)
  | error (msg : String)
  | undef
deriving DecidableEq, Repr

/-- The retry loop of `_makeRequest` (`api.js` lines 58-105), driven by an
attempt oracle `f` giving the outcome of the `i`-th attempt (1-based).
Returns the settled value, the number of attempts issued, and the list of
backoff delays awaited between attempts.  On a failed attempt `i` with
`i = maxRetries` the loop rejects with the aggregated message; otherwise it
sleeps `retryDelay * 2 ^ (i - 1)` and retries. -/
def retryLoop (f : Nat → Except String ApiResult) (maxRetries retryDelay : Nat)
    (attempt : Nat) : ReqResult × Nat × List Nat :=
  if _h : attempt ≤ maxRetries then
    match f attempt with
    | .ok r => (.ok r, 1, [])
    | .error e =>
      if attempt = maxRetries then
        (.error ("API request failed after " ++ toString maxRetries
            ++ " attempts: " ++ e), 1, [])
      else
        let d := retryDelay * 2 ^ (attempt - 1)
        let rest := retryLoop f maxRetries retryDelay (attempt + 1)
        (rest.1, rest.2.1 + 1, d :: rest.2.2)
  else
    (.undef, 0, [])
termination_by maxRetries + 1 - attempt
decreasing_by
  simp_wf
  omega

/-- `_makeRequest(endpoint, data, method, options)` as a function of the
attempt oracle: `maxRetries = options.retries || 3`,
`retryDelay = options.retryDelay || 1000`, attempts starting at 1. -/
def makeRequest (f : Nat → Except String ApiResult)
    (retries retryDelay : Option Nat) : ReqResult × Nat × List Nat :=
  retryLoop f (jsOrNat retries 3) (jsOrNat retryDelay 1000) 1

/-! ## `ApiService.request`: cache, dedup queue, settlement

JavaScript is single-threaded and `request` has no `await` between its first
line and `requestQueue.set`, so that synchronous prefix of each call is one
atomic step (`requestStart`); the `try`/`finally` around `await requestPromise`
is a second atomic step at settlement (`requestSettle`).  A promise is
modelled by the identifier allocated when `_makeRequest` is invoked; callers
that are handed the same identifier await the same settled value. -/

/-- The recognized fields of the `options` argument of `request`. -/
structure ReqOptions where
  cacheKey : Option String := none
  method : Option String := none
  cacheTime : Option Nat := none
  retries : Option Nat := none
  retryDelay : Option Nat := none
deriving Repr

/-- The mutable state of an `ApiService` instance: `this.cache`,
`this.requestQueue` (key to pending promise), a fresh-promise counter, and a
count of `_makeRequest` invocations (transport exchanges started). -/
structure ApiState where
  cache : List (String × ApiResult)
  requestQueue : List (String × Nat)
  nextPromiseId : Nat
  makeRequestCalls : Nat
deriving Repr

/-- `const cacheKey = options.cacheKey || this._generateCacheKey(endpoint, data)`. -/
def effCacheKey (endpoint : String) (data : Json) (opts : ReqOptions) : String :=
  jsOrStr opts.cacheKey (generateCacheKey endpoint data)

/-- `const method = options.method || 'POST'`. -/
def effMethod (opts : ReqOptions) : String :=
  jsOrStr opts.method "POST"

/-- What the synchronous prefix of `request` hands its caller: a cached value,
the promise of an already-pending identical request, or a freshly started
`_makeRequest` promise. -/
inductive StartResult where
  | fromCache (v : ApiResult)
  | joined (pid : Nat)
  | started (pid : Nat)
deriving DecidableEq, Repr

/-- The synchronous prefix of `request` (`api.js` lines 17-32): check the
cache (GET only), then the pending-request queue, else register a fresh
promise under the key and invoke `_makeRequest`. -/
def requestStart (s : ApiState) (endpoint : String) (data : Json)
    (opts : ReqOptions) : StartResult × ApiState :=
  let key := effCacheKey endpoint data opts
  if effMethod opts = "GET" ∧ (mapLookup s.cache key).isSome then
    (.fromCache ((mapLookup s.cache key).getD ⟨false, none, ""⟩), s)
  else
    match mapLookup s.requestQueue key with
    | some pid => (.joined pid, s)
    | none =>
        (.started s.nextPromiseId,
          { s with
              requestQueue := mapSet s.requestQueue key s.nextPromiseId,
              nextPromiseId := s.nextPromiseId + 1,
              makeRequestCalls := s.makeRequestCalls + 1 })

/-- The settlement step of `request` (`api.js` lines 34-48): on a successful
GET with a `cacheTime`, populate the cache; in all cases delete the pending
entry for the key (the `finally` block). -/
def requestSettle (s : ApiState) (key : String) (opts : ReqOptions)
    (outcome : ReqResult) : ReqResult × ApiState :=
  let s1 :=
    match outcome with
    | .ok r =>
        if effMethod opts = "GET" ∧ truthyNat opts.cacheTime then
          { s with cache := mapSet s.cache key r }
        else s
    | _ => s
  (outcome, { s1 with requestQueue := mapDelete s1.requestQueue key })

/-- The `setTimeout` eviction callback scheduled by `request` after caching
(`api.js` lines 40-42): delete the key from the cache when the TTL fires. -/
def cacheEvict (s : ApiState) (key : String) : ApiState :=
  { s with cache := mapDelete s.cache key }

/-- `n` callers invoking `request` with the same arguments, their synchronous
prefixes running in sequence (the cooperative single-threaded model), none
of their promises having settled yet. -/
def startN (s : ApiState) (endpoint : String) (data : Json)
    (opts : ReqOptions) : Nat → List StartResult × ApiState
  | 0 => ([], s)
  | n + 1 =>
      let step := requestStart s endpoint data opts
      let rest := startN step.2 endpoint data opts n
      (step.1 :: rest.1, rest.2)

/-- The settled value a caller eventually observes, given the resolution
table of promises: a cached value immediately, otherwise the settled value
of the promise the caller awaits. -/
def callerOutcome (resolve : Nat → ReqResult) : StartResult → ReqResult
  | .fromCache v => .ok v
  | .joined pid => resolve pid
  | .started pid => resolve pid

/-- `needle` occurs as a contiguous run inside `haystack`. -/
def containsRun (needle haystack : List Char) : Bool :=
  match haystack with
  | [] => needle.isEmpty
  | _ :: rest => needle.isPrefixOf haystack || containsRun needle rest

/-- JavaScript `key.includes(email)`: substring containment. -/
def jsIncludes (key sub : String) : Bool :=
  containsRun sub.data key.data

/-- `ApiService.clearUserCache(email)` (`api.js` lines 179-189): collect
every cache key containing `email` as a substring, then delete each. -/
def clearUserCache (s : ApiState) (email : String) : ApiState :=
  let keysToDelete :=
    (s.cache.map Prod.fst).filter (fun k => jsIncludes k email)
  { s with cache := keysToDelete.foldl (fun c k => mapDelete c k) s.cache }

/-! ## `AuthService`: session state -/

/-- A user record as stored by the client; `email` is the field the session
code reads, the rest of the record is abstracted as `blob`. -/
structure User where
  email : String
  blob : String
deriving DecidableEq, Repr

/-- The state of an `AuthService` instance: `this.currentUser`, the three
localStorage entries, and the configured `sessionTimeout` (24h in source). -/
structure AuthState where
  currentUser : Option User
  storeEmail : Option String
  storeData : Option User
  storeExpiry : Option Nat
  sessionTimeout : Nat
deriving DecidableEq, Repr

/-- `AuthService._setUserSession(user)` (`auth.js` lines 131-138) at time
`now`: set the in-memory user and persist the three entries, with
`expiry = Date.now() + this.sessionTimeout`. -/
def setUserSession (s : AuthState) (user : User) (now : Nat) : AuthState :=
  { s with
      currentUser := some user,
      storeEmail := some user.email,
      storeData := some user,
      storeExpiry := some (now + s.sessionTimeout) }

/-- The awaited result of `API.getUserProfile`: the parsed body's `success`
flag and `result.profile.user`. -/
structure ProfileResponse where
  success : Bool
  profileUser : User
deriving DecidableEq, Repr

/-- `AuthService.refreshUserData()` (`auth.js` lines 115-126) with the
profile call's settled outcome supplied explicitly: a no-op without a
current user; on a successful response, `_setUserSession(result.profile.user)`;
a rejected call is caught and logged, leaving the state unchanged. -/
def refreshUserData (s : AuthState) (outcome : Except String ProfileResponse)
    (now : Nat) : AuthState :=
  match s.currentUser with
  | none => s
  | some _ =>
      match outcome with
      | .ok r => if r.success then setUserSession s r.profileUser now else s
      | .error _ => s

/-- The awaited result of `API.loginUser(email)`: parsed body fields read by
`login`. -/
structure LoginResponse where
  success : Bool
  message : Option String
  user : User
deriving DecidableEq, Repr

/-- What `AuthService.login` returns to its caller. -/
structure LoginResult where
  success : Bool
  user : Option User
  error : Option String
deriving DecidableEq, Repr

/-- `new Error(result.message)`: an absent message yields an empty
`error.message`. -/
def thrownMessage (m : Option String) : String :=
  m.getD ""

/-- `AuthService.login(email)` (`auth.js` lines 25-45) with the API call's
settled outcome supplied explicitly: on a successful response the session is
set and `{success: true, user}` returned; a `success: false` body is thrown
and caught, and a rejected API call caught, both returning
`{success: false, error}` with the failure's message and leaving the state
unchanged. -/
def login (s : AuthState) (outcome : Except String LoginResponse) (now : Nat) :
    AuthState × LoginResult :=
  match outcome with
  | .ok r =>
      if r.success then
        (setUserSession s r.user now, ⟨true, some r.user, none⟩)
      else
        (s, ⟨false, none, some (thrownMessage r.message)⟩)
  | .error e => (s, ⟨false, none, some e⟩)

/-! ## Lemmas about the retry loop -/

/-- One-step unfolding of `retryLoop`. -/
theorem retryLoop_eq (f : Nat → Except String ApiResult) (mr rd a : Nat) :
    retryLoop f mr rd a =
      if a ≤ mr then
        match f a with
        | .ok r => (.ok r, 1, [])
        | .error e =>
            if a = mr then
              (.error ("API request failed after " ++ toString mr
                  ++ " attempts: " ++ e), 1, [])
            else
              ((retryLoop f mr rd (a + 1)).1,
               (retryLoop f mr rd (a + 1)).2.1 + 1,
               rd * 2 ^ (a - 1) :: (retryLoop f mr rd (a + 1)).2.2)
      else (.undef, 0, []) := by
  rw [retryLoop]
  simp only [dite_eq_ite]

/-- `jsOrNat` with a positive default is positive. -/
theorem jsOrNat_pos (o : Option Nat) (d : Nat) (hd : 0 < d) :
    0 < jsOrNat o d := by
  cases o with
  | none => simpa [jsOrNat] using hd
  | some n =>
      by_cases hn : n = 0 <;> simp [jsOrNat, hn] <;> omega

/-- If every attempt in `[a, mr]` fails, the loop from attempt `a` makes the
remaining `mr + 1 - a` attempts, sleeps the exponential-backoff delays, and
rejects with the aggregated message built from the last cause. -/
theorem retryLoop_all_fail (f : Nat → Except String ApiResult) (mr rd : Nat)
    (e : Nat → String) :
    ∀ a, 1 ≤ a → a ≤ mr → (∀ i, a ≤ i → i ≤ mr → f i = .error (e i)) →
    retryLoop f mr rd a =
      (.error ("API request failed after " ++ toString mr
          ++ " attempts: " ++ e mr),
       mr + 1 - a,
       (List.range (mr - a)).map (fun i => rd * 2 ^ (a - 1 + i))) := by
  have H : ∀ k a, mr - a = k → 1 ≤ a → a ≤ mr →
      (∀ i, a ≤ i → i ≤ mr → f i = .error (e i)) →
      retryLoop f mr rd a =
        (.error ("API request failed after " ++ toString mr
            ++ " attempts: " ++ e mr),
         mr + 1 - a,
         (List.range (mr - a)).map (fun i => rd * 2 ^ (a - 1 + i))) := by
    intro k
    induction k with
    | zero =>
        intro a hk h1 hm hf
        have ha : a = mr := by omega
        subst ha
        rw [retryLoop_eq, if_pos hm, hf a le_rfl le_rfl]
        simp only [eq_self_iff_true, if_true, Nat.sub_self, List.range_zero,
          List.map_nil]
        have hc : (1 : Nat) = a + 1 - a := by omega
        rw [← hc]
    | succ k ih =>
        intro a hk h1 hm hf
        have hne : a ≠ mr := by omega
        rw [retryLoop_eq, if_pos hm, hf a le_rfl hm]
        simp only [if_neg hne]
        rw [ih (a + 1) (by omega) (by omega) (by omega)
          (fun i hi1 hi2 => hf i (by omega) hi2)]
        have hcount : mr + 1 - (a + 1) + 1 = mr + 1 - a := by omega
        have hlist : (List.range (mr - a)).map (fun i => rd * 2 ^ (a - 1 + i))
            = rd * 2 ^ (a - 1)
              :: (List.range (mr - (a + 1))).map
                  (fun i => rd * 2 ^ (a + 1 - 1 + i)) := by
          rw [show mr - a = (mr - (a + 1)) + 1 by omega,
            List.range_succ_eq_map, List.map_cons, List.map_map]
          refine congrArg₂ _ (by norm_num) ?_
          refine List.map_congr_left fun i _ => ?_
          simp only [Function.comp_apply, Nat.succ_eq_add_one]
          rw [show a - 1 + (i + 1) = a + 1 - 1 + i by omega]
        rw [hcount, hlist]
  intro a h1 hm hf
  exact H (mr - a) a rfl h1 hm hf

/-- The loop's behavior depends only on the attempt oracle's values on the
attempt indices `[a, mr]`: attempts beyond `maxRetries` are never issued. -/
theorem retryLoop_congr (f g : Nat → Except String ApiResult) (mr rd : Nat) :
    ∀ a, (∀ i, a ≤ i → i ≤ mr → f i = g i) →
    retryLoop f mr rd a = retryLoop g mr rd a := by
  have H : ∀ k a, mr + 1 - a = k → (∀ i, a ≤ i → i ≤ mr → f i = g i) →
      retryLoop f mr rd a = retryLoop g mr rd a := by
    intro k
    induction k with
    | zero =>
        intro a hk _
        have hgt : ¬ a ≤ mr := by omega
        rw [retryLoop_eq f, retryLoop_eq g, if_neg hgt, if_neg hgt]
    | succ k ih =>
        intro a hk hfg
        by_cases hm : a ≤ mr
        · rw [retryLoop_eq f, retryLoop_eq g, if_pos hm, if_pos hm,
            hfg a le_rfl hm,
            ih (a + 1) (by omega) (fun i hi1 hi2 => hfg i (by omega) hi2)]
        · rw [retryLoop_eq f, retryLoop_eq g, if_neg hm, if_neg hm]
  intro a hfg
  exact H (mr + 1 - a) a rfl hfg

/-- The recorded delays of a run from attempt `a` are exactly the
exponential-backoff sequence indexed by the attempts that failed short of
the budget. -/
theorem retryLoop_delays (f : Nat → Except String ApiResult) (mr rd : Nat) :
    ∀ a, 1 ≤ a →
    (retryLoop f mr rd a).2.2 =
      (List.range ((retryLoop f mr rd a).2.1 - 1)).map
        (fun i => rd * 2 ^ (a - 1 + i)) := by
  have H : ∀ k a, mr + 1 - a = k → 1 ≤ a →
      (retryLoop f mr rd a).2.2 =
        (List.range ((retryLoop f mr rd a).2.1 - 1)).map
          (fun i => rd * 2 ^ (a - 1 + i)) := by
    intro k
    induction k with
    | zero =>
        intro a hk h1
        have hgt : ¬ a ≤ mr := by omega
        rw [retryLoop_eq, if_neg hgt]
        simp
    | succ k ih =>
        intro a hk h1
        by_cases hm : a ≤ mr
        · rw [retryLoop_eq, if_pos hm]
          cases hfa : f a with
          | ok r => simp
          | error e =>
              by_cases hmr : a = mr
              · simp [hmr]
              · simp only [if_neg hmr]
                have hpos : 1 ≤ (retryLoop f mr rd (a + 1)).2.1 := by
                  rw [retryLoop_eq]
                  by_cases hm1 : a + 1 ≤ mr
                  · rw [if_pos hm1]
                    cases f (a + 1) with
                    | ok r => simp
                    | error e =>
                        by_cases h2 : a + 1 = mr <;> simp [h2]
                  · omega
                rw [ih (a + 1) (by omega) (by omega)]
                have hn : (retryLoop f mr rd (a + 1)).2.1 + 1 - 1
                    = ((retryLoop f mr rd (a + 1)).2.1 - 1) + 1 := by omega
                rw [hn, List.range_succ_eq_map, List.map_cons, List.map_map]
                refine congrArg₂ _ (by simp) ?_
                refine List.map_congr_left fun i _ => ?_
                have : a - 1 + (i + 1) = a + 1 - 1 + i := by omega
                simp [Function.comp, this]
        · rw [retryLoop_eq, if_neg hm]
          simp
  intro a h1
  exact H (mr + 1 - a) a rfl h1

/-- From any attempt `a` within the budget, the loop settles (never resolves
with `undefined`): it returns an `ok` result or the aggregated error, issues
between `1` and `mr + 1 - a` attempts, records one delay per non-final
attempt, and every delay is bounded by `rd * 2 ^ (mr - 1)`. -/
theorem retryLoop_settles (f : Nat → Except String ApiResult) (mr rd : Nat) :
    ∀ a, 1 ≤ a → a ≤ mr →
    ((∃ r, (retryLoop f mr rd a).1 = .ok r) ∨
      (∃ c, (retryLoop f mr rd a).1 =
        .error ("API request failed after " ++ toString mr
          ++ " attempts: " ++ c)))
    ∧ 1 ≤ (retryLoop f mr rd a).2.1
    ∧ (retryLoop f mr rd a).2.1 ≤ mr + 1 - a
    ∧ (retryLoop f mr rd a).2.2.length = (retryLoop f mr rd a).2.1 - 1
    ∧ ∀ d ∈ (retryLoop f mr rd a).2.2, d ≤ rd * 2 ^ (mr - 1) := by
  have H : ∀ k a, mr + 1 - a = k → 1 ≤ a → a ≤ mr →
      ((∃ r, (retryLoop f mr rd a).1 = .ok r) ∨
        (∃ c, (retryLoop f mr rd a).1 =
          .error ("API request failed after " ++ toString mr
            ++ " attempts: " ++ c)))
      ∧ 1 ≤ (retryLoop f mr rd a).2.1
      ∧ (retryLoop f mr rd a).2.1 ≤ mr + 1 - a
      ∧ (retryLoop f mr rd a).2.2.length = (retryLoop f mr rd a).2.1 - 1
      ∧ ∀ d ∈ (retryLoop f mr rd a).2.2, d ≤ rd * 2 ^ (mr - 1) := by
    intro k
    induction k with
    | zero => intro a hk h1 hm; omega
    | succ k ih =>
        intro a hk h1 hm
        rw [retryLoop_eq, if_pos hm]
        cases hfa : f a with
        | ok r => simp; omega
        | error e =>
            by_cases hmr : a = mr
            · subst hmr
              simp
            · simp only [if_neg hmr]
              obtain ⟨hout, hcnt1, hcnt2, hlen, hdel⟩ :=
                ih (a + 1) (by omega) (by omega) (by omega)
              refine ⟨hout, by omega, by omega, by simp [hlen]; omega, ?_⟩
              intro d hd
              rcases List.mem_cons.mp hd with hd | hd
              · subst hd
                have hexp : a - 1 ≤ mr - 1 := by omega
                exact Nat.mul_le_mul_left rd (Nat.pow_le_pow_right (by omega) hexp)
              · exact hdel d hd
  intro a h1 hm
  exact H (mr + 1 - a) a rfl h1 hm

/-- If the loop resolves with a parsed result, some attempt in the window
produced it. -/
theorem retryLoop_ok_src (f : Nat → Except String ApiResult) (mr rd : Nat) :
    ∀ a r, (retryLoop f mr rd a).1 = .ok r → ∃ i, a ≤ i ∧ i ≤ mr ∧ f i = .ok r := by
  have H : ∀ k a r, mr + 1 - a = k → (retryLoop f mr rd a).1 = .ok r →
      ∃ i, a ≤ i ∧ i ≤ mr ∧ f i = .ok r := by
    intro k
    induction k with
    | zero =>
        intro a r hk hok
        rw [retryLoop_eq, if_neg (by omega : ¬ a ≤ mr)] at hok
        simp at hok
    | succ k ih =>
        intro a r hk hok
        by_cases hm : a ≤ mr
        · rw [retryLoop_eq, if_pos hm] at hok
          cases hfa : f a with
          | ok r' =>
              rw [hfa] at hok
              simp at hok
              exact ⟨a, le_rfl, hm, by rw [hfa, hok]⟩
          | error e =>
              rw [hfa] at hok
              by_cases hmr : a = mr
              · simp [hmr] at hok
              · simp only [if_neg hmr] at hok
                obtain ⟨i, hi1, hi2, hi3⟩ := ih (a + 1) r (by omega) hok
                exact ⟨i, by omega, hi2, hi3⟩
        · rw [retryLoop_eq, if_neg hm] at hok
          simp at hok
  intro a r hok
  exact H (mr + 1 - a) a r rfl hok

/-- `runAttempt` only returns a result whose own success indicator is true. -/
theorem runAttempt_ok (o : AttemptOutcome) (r : ApiResult)
    (h : runAttempt o = .ok r) : r.success = true := by
  cases o with
  | netError m => simp [runAttempt] at h
  | httpError s t => simp [runAttempt] at h
  | invalidJson => simp [runAttempt] at h
  | parsed r' =>
      by_cases hs : r'.success
      · simp [runAttempt, hs] at h
        rw [← h]
        exact hs
      · simp [runAttempt, hs] at h

/-- C2: for every attempt oracle that always fails and `maxAttempts = 3`,
the call makes exactly 3 attempts, rejects with the aggregated error naming
the attempt count and the last underlying cause, and never issues a 4th
attempt (the outcome depends only on attempts 1..3). -/
theorem c2_retry_exhaustion (f : Nat → Except String ApiResult)
    (rd : Option Nat) (e : Nat → String)
    (hf : ∀ i, 1 ≤ i → i ≤ 3 → f i = .error (e i)) :
    (makeRequest f (some 3) rd).1
        = .error ("API request failed after 3 attempts: " ++ e 3)
    ∧ (makeRequest f (some 3) rd).2.1 = 3
    ∧ ∀ g : Nat → Except String ApiResult,
        (∀ i, 1 ≤ i → i ≤ 3 → g i = f i) →
        makeRequest g (some 3) rd = makeRequest f (some 3) rd := by
  have key := retryLoop_all_fail f 3 (jsOrNat rd 1000) e 1 le_rfl (by omega) hf
  refine ⟨?_, ?_, ?_⟩
  · show (retryLoop f 3 (jsOrNat rd 1000) 1).1 = _
    rw [key]
    rfl
  · show (retryLoop f 3 (jsOrNat rd 1000) 1).2.1 = 3
    rw [key]
  · intro g hg
    show retryLoop g 3 (jsOrNat rd 1000) 1 = retryLoop f 3 (jsOrNat rd 1000) 1
    exact retryLoop_congr g f 3 (jsOrNat rd 1000) 1 hg

/-- Witness for C2 at the always-failing oracle `fun _ => .error "boom"`. -/
theorem c2_retry_exhaustion_witness :
    (makeRequest (fun _ => .error "boom") (some 3) none).1
        = .error ("API request failed after 3 attempts: " ++ "boom")
    ∧ (makeRequest (fun _ => .error "boom") (some 3) none).2.1 = 3 := by
  have h := c2_retry_exhaustion (fun _ => .error "boom") none (fun _ => "boom")
    (fun i _ _ => rfl)
  exact ⟨h.1, h.2.1⟩

/-- C3: the delays recorded by any call are the exponential-backoff sequence
`baseDelay * 2 ^ (i - 1)` indexed over its failed non-final attempts; in
particular with `maxAttempts = 3` and a transport failing twice then
succeeding, the call resolves on the 3rd attempt with waits `baseDelay` then
`baseDelay * 2`. -/
theorem c3_retry_backoff (f : Nat → Except String ApiResult) (bd : Nat)
    (r : ApiResult) (e1 e2 : String) (hbd : bd ≠ 0)
    (h1 : f 1 = .error e1) (h2 : f 2 = .error e2) (h3 : f 3 = .ok r) :
    (∀ (g : Nat → Except String ApiResult) (retries retryDelay : Option Nat),
        (makeRequest g retries retryDelay).2.2 =
          (List.range ((makeRequest g retries retryDelay).2.1 - 1)).map
            (fun i => jsOrNat retryDelay 1000 * 2 ^ i))
    ∧ makeRequest f (some 3) (some bd) = (.ok r, 3, [bd, bd * 2]) := by
  constructor
  · intro g retries retryDelay
    show (retryLoop g (jsOrNat retries 3) (jsOrNat retryDelay 1000) 1).2.2 =
      (List.range
          ((retryLoop g (jsOrNat retries 3) (jsOrNat retryDelay 1000) 1).2.1
            - 1)).map
        (fun i => jsOrNat retryDelay 1000 * 2 ^ i)
    rw [retryLoop_delays g (jsOrNat retries 3) (jsOrNat retryDelay 1000) 1
      le_rfl]
    refine List.map_congr_left fun i _ => by norm_num
  · show retryLoop f 3 (jsOrNat (some bd) 1000) 1 = _
    rw [show jsOrNat (some bd) 1000 = bd by simp [jsOrNat, hbd]]
    simp [retryLoop_eq, h1, h2, h3]

/-- Witness for C3: fails on attempts 1 and 2, succeeds on attempt 3, with
`baseDelay = 1000`; the call resolves on the 3rd attempt after waiting
1000 then 2000. -/
theorem c3_retry_backoff_witness :
    makeRequest (fun i => if i ≤ 2 then .error "e" else .ok ⟨true, none, "v"⟩)
        (some 3) (some 1000)
      = (.ok ⟨true, none, "v"⟩, 3, [1000, 2000]) := by
  have h := (c3_retry_backoff
    (fun i => if i ≤ 2 then .error "e" else .ok ⟨true, none, "v"⟩)
    1000 ⟨true, none, "v"⟩ "e" "e" (by norm_num) rfl rfl rfl).2
  rw [h]

/-- C9: every call settles after at most `maxAttempts` attempts — it resolves
with a parsed result or rejects with the aggregated (human-readable) error
message, makes between 1 and `options.retries || 3` attempts, waits once per
non-final attempt, and each wait is bounded by
`(options.retryDelay || 1000) * 2 ^ (maxAttempts - 1)`. -/
theorem c9_termination (f : Nat → Except String ApiResult)
    (retries retryDelay : Option Nat) :
    ((∃ r, (makeRequest f retries retryDelay).1 = .ok r) ∨
      (∃ c, (makeRequest f retries retryDelay).1 =
        .error ("API request failed after " ++ toString (jsOrNat retries 3)
          ++ " attempts: " ++ c)))
    ∧ 1 ≤ (makeRequest f retries retryDelay).2.1
    ∧ (makeRequest f retries retryDelay).2.1 ≤ jsOrNat retries 3
    ∧ (makeRequest f retries retryDelay).2.2.length
        = (makeRequest f retries retryDelay).2.1 - 1
    ∧ ∀ d ∈ (makeRequest f retries retryDelay).2.2,
        d ≤ jsOrNat retryDelay 1000 * 2 ^ (jsOrNat retries 3 - 1) := by
  have hmr : 1 ≤ jsOrNat retries 3 := jsOrNat_pos retries 3 (by norm_num)
  have hdef : makeRequest f retries retryDelay
      = retryLoop f (jsOrNat retries 3) (jsOrNat retryDelay 1000) 1 := rfl
  rw [hdef]
  obtain ⟨h1, h2, h3, h4, h5⟩ :=
    retryLoop_settles f (jsOrNat retries 3) (jsOrNat retryDelay 1000) 1
      le_rfl hmr
  exact ⟨h1, h2, by omega, h4, h5⟩

/-- C5: a call resolves successfully only with a body whose own success
indicator is true, and a parsed body with `success: false` behaves exactly
like a transport failure carrying the backend-supplied message — it is
retried under the same budget with the same delays and the same aggregated
outcome. -/
theorem c5_success_indicator (outcomes : Nat → AttemptOutcome)
    (retries retryDelay : Option Nat) :
    (∀ r : ApiResult,
        (makeRequest (fun i => runAttempt (outcomes i)) retries retryDelay).1
            = .ok r →
        r.success = true)
    ∧ ∀ msg bodies : Nat → String,
        (∀ i, msg i ≠ "") →
        makeRequest
            (fun i => runAttempt (.parsed ⟨false, some (msg i), bodies i⟩))
            retries retryDelay
          = makeRequest (fun i => .error (msg i)) retries retryDelay := by
  constructor
  · intro r hok
    obtain ⟨i, _, _, hi⟩ :=
      retryLoop_ok_src (fun i => runAttempt (outcomes i)) (jsOrNat retries 3)
        (jsOrNat retryDelay 1000) 1 r hok
    exact runAttempt_ok (outcomes i) r hi
  · intro msg bodies hmsg
    have hfun : (fun i => runAttempt
          (.parsed ⟨false, some (msg i), bodies i⟩))
        = fun i => (.error (msg i) : Except String ApiResult) := by
      funext i
      simp [runAttempt, failMessage, jsOrStr, hmsg i]
    rw [hfun]

/-- Witness for C5: a backend that always answers `success: false` with
message "nope" is processed identically to a transport that always fails
with "nope". -/
theorem c5_success_indicator_witness :
    makeRequest (fun _ => runAttempt (.parsed ⟨false, some "nope", ""⟩))
        none none
      = makeRequest (fun _ => .error "nope") none none := by
  refine (c5_success_indicator (fun _ => .parsed ⟨false, some "nope", ""⟩)
    none none).2 (fun _ => "nope") (fun _ => "") ?_
  intro i
  show "nope" ≠ ""
  decide

/-! ## Cache-key generation (C6) -/

/-- C6 counterexample: two payloads that are equal as mappings (same
key-value bindings, looked up identically for every key) but with different
insertion orders produce different cache/dedup keys, because
`JSON.stringify` serializes fields in insertion order. -/
theorem c6_key_order_counterexample :
    (∀ k : String,
        mapLookup [("a", Json.str "1"), ("b", Json.str "2")] k
          = mapLookup [("b", Json.str "2"), ("a", Json.str "1")] k)
    ∧ generateCacheKey "op" (.obj [("a", .str "1"), ("b", .str "2")])
        ≠ generateCacheKey "op" (.obj [("b", .str "2"), ("a", .str "1")]) := by
  constructor
  · intro k
    by_cases ha : "a" = k
    · by_cases hb : "b" = k
      · exact absurd (ha.trans hb.symm) (by decide)
      · simp [mapLookup, ha, hb]
    · by_cases hb : "b" = k <;> simp [mapLookup, ha, hb]
  · decide

/-- C6 (amended): the key is deterministic in `(operation, serialized
payload)` — two calls get equal keys exactly when their payloads have equal
`JSON.stringify` serializations (in particular the same fields in the same
insertion order); payload key order does affect key equality. -/
theorem c6_key_determinism (op : String) (d1 d2 : Json) :
    generateCacheKey op d1 = generateCacheKey op d2
      ↔ stringify d1 = stringify d2 := by
  unfold generateCacheKey
  constructor
  · intro h
    have hd : op.data ++ ("_" ++ stringify d1).data
        = op.data ++ ("_" ++ stringify d2).data := by
      have := congrArg String.data h
      simpa [String.data_append] using this
    have h2 := List.append_cancel_left hd
    have h3 : ("_" ++ stringify d1).data = ("_" ++ stringify d2).data := h2
    have h4 := List.append_cancel_left
      (by simpa [String.data_append] using h3 :
        "_".data ++ (stringify d1).data = "_".data ++ (stringify d2).data)
    exact String.ext h4
  · intro h
    rw [h]

/-! ## `clearUserCache` (C10) -/

/-- Folding JS `Map.delete` over a list of keys filters out exactly the
entries bound to those keys. -/
theorem foldl_mapDelete {α : Type} (ks : List String)
    (c : List (String × α)) :
    ks.foldl (fun acc k => mapDelete acc k) c
      = c.filter (fun p => decide (p.1 ∉ ks)) := by
  induction ks generalizing c with
  | nil => simp
  | cons k ks ih =>
      rw [List.foldl_cons, ih (mapDelete c k)]
      show (c.filter (fun p => decide (p.1 ≠ k))).filter
          (fun p => decide (p.1 ∉ ks))
        = c.filter (fun p => decide (p.1 ∉ k :: ks))
      rw [List.filter_filter]
      refine List.filter_congr fun p _ => ?_
      by_cases h1 : p.1 = k <;> by_cases h2 : p.1 ∈ ks <;>
        simp [h1, h2]

/-- C10: `clearUserCache(email)` removes exactly the cache entries whose key
contains `email` as a substring, leaves the pending-request queue alone,
removes nothing when no key contains `email`, and — because keys embed the
payload — a key built for user `aa@b.com` does contain `a@b.com`, so that
user's entry would also be removed. -/
theorem c10_clear_user_cache (s : ApiState) (email : String) :
    ((clearUserCache s email).cache
        = s.cache.filter (fun p => ¬ jsIncludes p.1 email))
    ∧ (clearUserCache s email).requestQueue = s.requestQueue
    ∧ ((∀ p ∈ s.cache, jsIncludes p.1 email = false) →
        clearUserCache s email = s)
    ∧ jsIncludes ("profile_" ++ "aa@b.com") "a@b.com" = true
    ∧ jsIncludes
        (generateCacheKey "user.profile" (.obj [("email", .str "aa@b.com")]))
        "a@b.com" = true := by
  have hmain : (clearUserCache s email).cache
      = s.cache.filter (fun p => ¬ jsIncludes p.1 email) := by
    show ((s.cache.map Prod.fst).filter
          (fun k => jsIncludes k email)).foldl (fun c k => mapDelete c k)
        s.cache
      = s.cache.filter (fun p => ¬ jsIncludes p.1 email)
    rw [foldl_mapDelete]
    refine List.filter_congr fun p hp => ?_
    by_cases h : jsIncludes p.1 email
    · have hmem : p.1 ∈ (s.cache.map Prod.fst).filter
          (fun k => jsIncludes k email) :=
        List.mem_filter.mpr ⟨List.mem_map_of_mem Prod.fst hp, h⟩
      simp [hmem, h]
    · have hmem : p.1 ∉ (s.cache.map Prod.fst).filter
          (fun k => jsIncludes k email) := by
        intro hmem
        exact h (List.mem_filter.mp hmem).2
      simp [hmem, h]
  refine ⟨hmain, rfl, ?_, by decide, by decide⟩
  intro hall
  have : (clearUserCache s email).cache = s.cache := by
    rw [hmain]
    refine List.filter_eq_self.mpr fun p hp => ?_
    simp [hall p hp]
  show { s with cache := (clearUserCache s email).cache } = s
  rw [this]

/-! ## Session lifecycle (C7, C8) -/

/-- C7 counterexample: from a session persisted with expiry 100, a
successful `refreshUserData` at time 7 (with the source's 24h timeout)
re-writes the persisted expiry to `7 + 86400000 = 86400007`: refresh does
extend `expiresAt`, contradicting the claim that expiry is re-set only on
explicit login/register. -/
theorem c7_refresh_counterexample :
    (⟨some ⟨"a@b.com", ""⟩, some "a@b.com", some ⟨"a@b.com", ""⟩,
        some 100, 86400000⟩ : AuthState).storeExpiry = some 100
    ∧ (refreshUserData
          ⟨some ⟨"a@b.com", ""⟩, some "a@b.com", some ⟨"a@b.com", ""⟩,
            some 100, 86400000⟩
          (.ok ⟨true, ⟨"a@b.com", ""⟩⟩) 7).storeExpiry
        = some 86400007
    ∧ some (86400007 : Nat) ≠ some (100 : Nat) := by
  refine ⟨rfl, rfl, by decide⟩

/-- C7 (amended): a successful `refreshUserData` overwrites the persisted
session fields AND re-sets `expiresAt` to `now + sessionTimeout`, exactly as
login/register do — whenever a session is present, its expiry was computed
as `now + sessionTimeout` at the last successful authentication *or
refresh*. -/
theorem c7_refresh_resets_expiry (s : AuthState) (r : ProfileResponse)
    (now : Nat) (hu : s.currentUser.isSome) (hr : r.success = true) :
    (refreshUserData s (.ok r) now).storeExpiry
        = some (now + s.sessionTimeout)
    ∧ (refreshUserData s (.ok r) now).currentUser = some r.profileUser
    ∧ (refreshUserData s (.ok r) now).storeData = some r.profileUser
    ∧ (refreshUserData s (.ok r) now).storeEmail
        = some r.profileUser.email := by
  obtain ⟨u, hu⟩ := Option.isSome_iff_exists.mp hu
  simp [refreshUserData, setUserSession, hu, hr]

/-- Witness for C7 (amended) at a concrete active session. -/
theorem c7_refresh_resets_expiry_witness :
    (refreshUserData
        ⟨some ⟨"a@b.com", ""⟩, some "a@b.com", some ⟨"a@b.com", ""⟩,
          some 100, 86400000⟩
        (.ok ⟨true, ⟨"a@b.com", "x"⟩⟩) 7).storeExpiry = some 86400007
    ∧ (refreshUserData
        ⟨some ⟨"a@b.com", ""⟩, some "a@b.com", some ⟨"a@b.com", ""⟩,
          some 100, 86400000⟩
        (.ok ⟨true, ⟨"a@b.com", "x"⟩⟩) 7).storeData = some ⟨"a@b.com", "x"⟩ := by
  have h := c7_refresh_resets_expiry
    ⟨some ⟨"a@b.com", ""⟩, some "a@b.com", some ⟨"a@b.com", ""⟩,
      some 100, 86400000⟩
    ⟨true, ⟨"a@b.com", "x"⟩⟩ 7 (by decide) rfl
  exact ⟨h.1, h.2.2.1⟩

/-- C8: a login whose API call fails — the promise rejects, or the parsed
body carries `success: false` — leaves the session state (in-memory user and
all three persisted fields) unchanged and returns `{success: false, error}`
carrying the failure's message to the caller. -/
theorem c8_login_failure (s : AuthState)
    (outcome : Except String LoginResponse) (now : Nat)
    (hfail : ∀ r, outcome = .ok r → r.success = false) :
    (login s outcome now).1 = s
    ∧ (login s outcome now).2.success = false
    ∧ (login s outcome now).2.error
        = some (match outcome with
            | .ok r => thrownMessage r.message
            | .error e => e) := by
  cases outcome with
  | ok r =>
      have hr := hfail r rfl
      simp [login, hr]
  | error e => simp [login]

/-- Witness for C8 at a backend rejection with message "Invalid login". -/
theorem c8_login_failure_witness :
    (login ⟨none, none, none, none, 86400000⟩
        (.ok ⟨false, some "Invalid login", ⟨"a@b.com", ""⟩⟩) 5).1
      = ⟨none, none, none, none, 86400000⟩
    ∧ (login ⟨none, none, none, none, 86400000⟩
        (.ok ⟨false, some "Invalid login", ⟨"a@b.com", ""⟩⟩) 5).2.error
      = some "Invalid login" := by
  have h := c8_login_failure ⟨none, none, none, none, 86400000⟩
    (.ok ⟨false, some "Invalid login", ⟨"a@b.com", ""⟩⟩) 5
    (fun r hr => by cases hr; rfl)
  exact ⟨h.1, h.2.2⟩

/-! ## Deduplication and cache behavior of `request` (C1, C4) -/

/-- A `Map.set` binding is immediately visible to `Map.get`. -/
theorem mapLookup_set_self {α : Type} (l : List (String × α)) (k : String)
    (v : α) : mapLookup (mapSet l k v) k = some v := by
  simp [mapSet, mapLookup]

/-- After `Map.delete`, the key is gone. -/
theorem mapLookup_delete_self {α : Type} (l : List (String × α))
    (k : String) : mapLookup (mapDelete l k) k = none := by
  induction l with
  | nil => rfl
  | cons p rest ih =>
      by_cases h : p.1 = k
      · have h2 : mapDelete (p :: rest) k = mapDelete rest k := by
          simp [mapDelete, List.filter_cons, h]
        rw [h2]
        exact ih
      · have h2 : mapDelete (p :: rest) k = p :: mapDelete rest k := by
          simp [mapDelete, List.filter_cons, h]
        rw [h2]
        show (if p.1 = k then some p.2 else mapLookup (mapDelete rest k) k)
          = none
        rw [if_neg h]
        exact ih

/-- If the cache branch is not taken and a pending promise exists for the
key, `request` returns that promise and changes nothing. -/
theorem requestStart_joined (s : ApiState) (endpoint : String) (data : Json)
    (opts : ReqOptions) (p : Nat)
    (hc : ¬ (effMethod opts = "GET"
        ∧ (mapLookup s.cache (effCacheKey endpoint data opts)).isSome = true))
    (hq : mapLookup s.requestQueue (effCacheKey endpoint data opts) = some p) :
    requestStart s endpoint data opts = (.joined p, s) := by
  simp only [requestStart]
  rw [if_neg hc, hq]

/-- If the cache branch is not taken and no pending promise exists,
`request` registers a fresh promise, invokes `_makeRequest` once, and
returns the new promise. -/
theorem requestStart_fresh (s : ApiState) (endpoint : String) (data : Json)
    (opts : ReqOptions)
    (hc : ¬ (effMethod opts = "GET"
        ∧ (mapLookup s.cache (effCacheKey endpoint data opts)).isSome = true))
    (hq : mapLookup s.requestQueue (effCacheKey endpoint data opts) = none) :
    requestStart s endpoint data opts =
      (.started s.nextPromiseId,
        { s with
            requestQueue := mapSet s.requestQueue
              (effCacheKey endpoint data opts) s.nextPromiseId,
            nextPromiseId := s.nextPromiseId + 1,
            makeRequestCalls := s.makeRequestCalls + 1 }) := by
  simp only [requestStart]
  rw [if_neg hc, hq]

/-- A GET with a live cache entry returns it with the state untouched. -/
theorem requestStart_cache_hit (s : ApiState) (endpoint : String)
    (data : Json) (opts : ReqOptions) (v : ApiResult)
    (hm : effMethod opts = "GET")
    (hv : mapLookup s.cache (effCacheKey endpoint data opts) = some v) :
    requestStart s endpoint data opts = (.fromCache v, s) := by
  simp only [requestStart]
  rw [if_pos ⟨hm, by rw [hv]; rfl⟩, hv]
  rfl

/-- Settlement always deletes the pending entry for the key, whatever the
outcome. -/
theorem requestSettle_queue (s : ApiState) (key : String)
    (opts : ReqOptions) (outcome : ReqResult) :
    (requestSettle s key opts outcome).2.requestQueue
      = mapDelete s.requestQueue key := by
  cases outcome with
  | ok r =>
      simp only [requestSettle]
      split <;> rfl
  | error m => rfl
  | undef => rfl

/-- While a promise for the key is pending (and the cache branch is not
taken), every further identical call joins that promise and the state does
not change. -/
theorem startN_joined (endpoint : String) (data : Json) (opts : ReqOptions)
    (p : Nat) :
    ∀ (n : Nat) (s : ApiState),
    ¬ (effMethod opts = "GET"
        ∧ (mapLookup s.cache (effCacheKey endpoint data opts)).isSome = true) →
    mapLookup s.requestQueue (effCacheKey endpoint data opts) = some p →
    startN s endpoint data opts n = (List.replicate n (.joined p), s) := by
  intro n
  induction n with
  | zero => intro s _ _; rfl
  | succ m ih =>
      intro s hc hq
      have hstep : startN s endpoint data opts (m + 1)
          = ((requestStart s endpoint data opts).1
              :: (startN (requestStart s endpoint data opts).2
                    endpoint data opts m).1,
             (startN (requestStart s endpoint data opts).2
                endpoint data opts m).2) := rfl
      rw [hstep, requestStart_joined s endpoint data opts p hc hq,
        ih s hc hq, List.replicate_succ]

/-- C1: with no pending promise and the cache branch not taken, `n ≥ 1`
concurrent identical calls produce exactly one `_makeRequest` invocation:
the first caller starts promise `pid`, the other `n - 1` join the same
promise, so all `n` callers observe the same settled outcome; the pending
entry maps the key to `pid` until settlement deletes it, so a later call
starts afresh. -/
theorem c1_dedup (s : ApiState) (endpoint : String) (data : Json)
    (opts : ReqOptions) (n : Nat)
    (hq : mapLookup s.requestQueue (effCacheKey endpoint data opts) = none)
    (hc : ¬ (effMethod opts = "GET"
        ∧ (mapLookup s.cache (effCacheKey endpoint data opts)).isSome = true))
    (hn : 1 ≤ n) :
    (startN s endpoint data opts n).1
        = .started s.nextPromiseId
            :: List.replicate (n - 1) (.joined s.nextPromiseId)
    ∧ (startN s endpoint data opts n).2.makeRequestCalls
        = s.makeRequestCalls + 1
    ∧ (∀ resolve : Nat → ReqResult,
        (startN s endpoint data opts n).1.map (callerOutcome resolve)
          = List.replicate n (resolve s.nextPromiseId))
    ∧ mapLookup (startN s endpoint data opts n).2.requestQueue
          (effCacheKey endpoint data opts)
        = some s.nextPromiseId
    ∧ (∀ outcome : ReqResult,
        mapLookup
          (requestSettle (startN s endpoint data opts n).2
              (effCacheKey endpoint data opts) opts outcome).2.requestQueue
          (effCacheKey endpoint data opts) = none)
    ∧ ∀ outcome : ReqResult,
        ¬ (effMethod opts = "GET"
            ∧ (mapLookup
                (requestSettle (startN s endpoint data opts n).2
                  (effCacheKey endpoint data opts) opts outcome).2.cache
                (effCacheKey endpoint data opts)).isSome = true) →
        (requestStart
            (requestSettle (startN s endpoint data opts n).2
              (effCacheKey endpoint data opts) opts outcome).2
            endpoint data opts).1
          = .started
              (requestSettle (startN s endpoint data opts n).2
                (effCacheKey endpoint data opts) opts outcome).2.nextPromiseId := by
  obtain ⟨m, rfl⟩ : ∃ m, n = m + 1 := ⟨n - 1, by omega⟩
  have hstep : startN s endpoint data opts (m + 1)
      = ((requestStart s endpoint data opts).1
          :: (startN (requestStart s endpoint data opts).2
                endpoint data opts m).1,
         (startN (requestStart s endpoint data opts).2
            endpoint data opts m).2) := rfl
  rw [hstep, requestStart_fresh s endpoint data opts hc hq]
  have hrest := startN_joined endpoint data opts s.nextPromiseId m
    { s with
        requestQueue := mapSet s.requestQueue
          (effCacheKey endpoint data opts) s.nextPromiseId,
        nextPromiseId := s.nextPromiseId + 1,
        makeRequestCalls := s.makeRequestCalls + 1 }
    hc (mapLookup_set_self s.requestQueue (effCacheKey endpoint data opts)
      s.nextPromiseId)
  rw [hrest]
  refine ⟨by simp, rfl, ?_, ?_, ?_, ?_⟩
  · intro resolve
    simp [callerOutcome, List.map_replicate, List.replicate_succ]
  · exact mapLookup_set_self s.requestQueue (effCacheKey endpoint data opts)
      s.nextPromiseId
  · intro outcome
    rw [requestSettle_queue]
    exact mapLookup_delete_self _ _
  · intro outcome hc3
    have hq3 : mapLookup
        (requestSettle
          (List.replicate m (StartResult.joined s.nextPromiseId),
            { s with
                requestQueue := mapSet s.requestQueue
                  (effCacheKey endpoint data opts) s.nextPromiseId,
                nextPromiseId := s.nextPromiseId + 1,
                makeRequestCalls := s.makeRequestCalls + 1 }).2
          (effCacheKey endpoint data opts) opts outcome).2.requestQueue
        (effCacheKey endpoint data opts) = none := by
      rw [requestSettle_queue]
      exact mapLookup_delete_self _ _
    rw [requestStart_fresh _ endpoint data opts hc3 hq3]

/-- Witness for C1: three concurrent `user.login` POSTs from the pristine
state: one started promise, two joins, one `_makeRequest` call, and the
queue entry is gone after settlement. -/
theorem c1_dedup_witness :
    (startN ⟨[], [], 0, 0⟩ "user.login"
        (.obj [("email", .str "a@b.com")]) ⟨none, none, none, none, none⟩
        3).1
      = [.started 0, .joined 0, .joined 0]
    ∧ (startN ⟨[], [], 0, 0⟩ "user.login"
        (.obj [("email", .str "a@b.com")]) ⟨none, none, none, none, none⟩
        3).2.makeRequestCalls = 1 := by
  have h := c1_dedup ⟨[], [], 0, 0⟩ "user.login"
    (.obj [("email", .str "a@b.com")]) ⟨none, none, none, none, none⟩ 3
    rfl (by simp [effMethod, jsOrStr]) (by omega)
  exact ⟨h.1, h.2.1⟩

/-- C4: a GET whose key has a live cache entry returns it at once with the
state unchanged — no `_makeRequest`, no queue registration, no retry; and in
the two-call scenario, a cacheable call that settles successfully populates
the cache so the identical second call returns the first call's value from
the cache (whatever the transport would now do), with `_makeRequest` having
run exactly once across both calls. -/
theorem c4_cache_correctness (s0 : ApiState) (endpoint : String)
    (data : Json) (opts : ReqOptions) (r : ApiResult)
    (hget : effMethod opts = "GET")
    (httl : truthyNat opts.cacheTime = true)
    (hc0 : mapLookup s0.cache (effCacheKey endpoint data opts) = none)
    (hq0 : mapLookup s0.requestQueue (effCacheKey endpoint data opts) = none) :
    (∀ (s : ApiState) (v : ApiResult),
        mapLookup s.cache (effCacheKey endpoint data opts) = some v →
        requestStart s endpoint data opts = (.fromCache v, s))
    ∧ (requestStart s0 endpoint data opts).1 = .started s0.nextPromiseId
    ∧ (requestStart
          (requestSettle (requestStart s0 endpoint data opts).2
            (effCacheKey endpoint data opts) opts (.ok r)).2
          endpoint data opts).1
        = .fromCache r
    ∧ (requestStart
          (requestSettle (requestStart s0 endpoint data opts).2
            (effCacheKey endpoint data opts) opts (.ok r)).2
          endpoint data opts).2
        = (requestSettle (requestStart s0 endpoint data opts).2
            (effCacheKey endpoint data opts) opts (.ok r)).2
    ∧ (requestSettle (requestStart s0 endpoint data opts).2
          (effCacheKey endpoint data opts) opts (.ok r)).2.makeRequestCalls
        = s0.makeRequestCalls + 1 := by
  have hcbranch : ¬ (effMethod opts = "GET"
      ∧ (mapLookup s0.cache (effCacheKey endpoint data opts)).isSome
          = true) := by
    rintro ⟨-, hs⟩
    rw [hc0] at hs
    exact absurd hs (by simp)
  have hfresh := requestStart_fresh s0 endpoint data opts hcbranch hq0
  have hsettle : (requestSettle (requestStart s0 endpoint data opts).2
      (effCacheKey endpoint data opts) opts (.ok r)).2
      = { (requestStart s0 endpoint data opts).2 with
            cache := mapSet (requestStart s0 endpoint data opts).2.cache
              (effCacheKey endpoint data opts) r,
            requestQueue := mapDelete
              (mapSet s0.requestQueue (effCacheKey endpoint data opts)
                s0.nextPromiseId)
              (effCacheKey endpoint data opts) } := by
    rw [hfresh]
    simp only [requestSettle, if_pos (And.intro hget httl)]
  have hlive : mapLookup
      (requestSettle (requestStart s0 endpoint data opts).2
        (effCacheKey endpoint data opts) opts (.ok r)).2.cache
      (effCacheKey endpoint data opts) = some r := by
    rw [hsettle]
    exact mapLookup_set_self _ _ r
  have hhit := requestStart_cache_hit
    (requestSettle (requestStart s0 endpoint data opts).2
      (effCacheKey endpoint data opts) opts (.ok r)).2
    endpoint data opts r hget hlive
  refine ⟨fun s v hv => requestStart_cache_hit s endpoint data opts v hget hv,
    by rw [hfresh], by rw [hhit], by rw [hhit], ?_⟩
  rw [hsettle, hfresh]

/-- Witness for C4: the `user.profile` GET with `cacheKey "profile_a@b.com"`
and a 60s TTL, from the pristine state. -/
theorem c4_cache_correctness_witness :
    (requestStart
        (requestSettle (requestStart ⟨[], [], 0, 0⟩ "user.profile"
            (.obj [("email", .str "a@b.com")])
            ⟨some "profile_a@b.com", some "GET", some 60000, none, none⟩).2
          (effCacheKey "user.profile" (.obj [("email", .str "a@b.com")])
            ⟨some "profile_a@b.com", some "GET", some 60000, none, none⟩)
          ⟨some "profile_a@b.com", some "GET", some 60000, none, none⟩
          (.ok ⟨true, none, "profile"⟩)).2
        "user.profile" (.obj [("email", .str "a@b.com")])
        ⟨some "profile_a@b.com", some "GET", some 60000, none, none⟩).1
      = .fromCache ⟨true, none, "profile"⟩ := by
  have h := c4_cache_correctness ⟨[], [], 0, 0⟩ "user.profile"
    (.obj [("email", .str "a@b.com")])
    ⟨some "profile_a@b.com", some "GET", some 60000, none, none⟩
    ⟨true, none, "profile"⟩ rfl rfl rfl rfl
  exact h.2.2.1

/-- Witness for C6 (amended): applying the key-determinism equivalence at a
concrete serialization equality. -/
theorem c6_key_determinism_witness :
    generateCacheKey "op" (.obj [("a", .str "1"), ("b", .str "2")])
      = generateCacheKey "op" (.obj [("a", .str "1"), ("b", .str "2")]) :=
  (c6_key_determinism "op" (.obj [("a", .str "1"), ("b", .str "2")])
    (.obj [("a", .str "1"), ("b", .str "2")])).mpr (by decide)

/-- Witness for C9 at an always-failing transport with default options. -/
theorem c9_termination_witness :
    1 ≤ (makeRequest (fun _ => .error "x") none none).2.1
    ∧ (makeRequest (fun _ => .error "x") none none).2.1 ≤ 3 := by
  have h := c9_termination (fun _ => .error "x") none none
  exact ⟨h.2.1, h.2.2.1⟩

/-- Witness for C10 at a two-entry cache: the key built for user
`aa@b.com` contains `a@b.com` and is removed; the unrelated entry
survives. -/
theorem c10_clear_user_cache_witness :
    (clearUserCache
        ⟨[("profile_aa@b.com", ⟨true, none, "x"⟩),
          ("stats_z@q.io", ⟨true, none, "y"⟩)], [], 0, 0⟩
        "a@b.com").cache
      = [("stats_z@q.io", ⟨true, none, "y"⟩)] := by
  have h := (c10_clear_user_cache
    ⟨[("profile_aa@b.com", ⟨true, none, "x"⟩),
      ("stats_z@q.io", ⟨true, none, "y"⟩)], [], 0, 0⟩ "a@b.com").1
  rw [h]
  decide

end AutoPostr
